import Mathlib

/-!
Verification of the redaction-extraction pipeline of the `epstein-studio`
repository.  Python floats are modelled as rationals (`ℚ`), Python `int(...)`
truncation and `round(...)` as the corresponding integer operations, strings
as Lean `String`s.  Definitions follow the Python sources
(`tools/redaction_extractor/redaction_extractor/*.py` and
`backend/apps/epstein_ui/views.py`) function by function.
-/

namespace EpsteinStudio

/-- A bounding box `(x0, y0, x1, y1)` in PDF points or pixels, as used
throughout the extractor (`models.py`). -/
structure BBox where
  x0 : ℚ
  y0 : ℚ
  x1 : ℚ
  y1 : ℚ
deriving DecidableEq, Repr

/-- The floor of a rational, written so that the kernel can evaluate it
(`⌊q⌋` itself goes through the `FloorRing` instance, which `decide` cannot
reduce).  `Rat.floor_def` shows this equals `⌊q⌋`. -/
def ratFloor (q : ℚ) : ℤ := q.num / q.den

/-- Python `int(q)`: truncation toward zero. -/
def pyInt (q : ℚ) : ℤ :=
  if 0 ≤ q then ratFloor q else -(ratFloor (-q))

/-- Round-half-to-even on a rational, the integer rounding used by Python's
built-in `round`. -/
def halfEven (q : ℚ) : ℤ :=
  let f := ratFloor q
  let r := q - (f : ℚ)
  if r < 1/2 then f
  else if 1/2 < r then f + 1
  else if f % 2 = 0 then f else f + 1

/-- Python `round(q, ndigits)` modelled exactly on rationals. -/
def pyRoundTo (ndigits : ℕ) (q : ℚ) : ℚ :=
  (halfEven (q * 10 ^ ndigits) : ℚ) / 10 ^ ndigits

/-- `calculate_iou` from `detection_merger.py` (lines 16-49): intersection
over union of two boxes, `0` when the clipped box is empty or the union
area is non-positive. -/
def calculate_iou (bbox1 bbox2 : BBox) : ℚ :=
  let x0 := max bbox1.x0 bbox2.x0
  let y0 := max bbox1.y0 bbox2.y0
  let x1 := min bbox1.x1 bbox2.x1
  let y1 := min bbox1.y1 bbox2.y1
  if x1 ≤ x0 ∨ y1 ≤ y0 then 0
  else
    let intersection := (x1 - x0) * (y1 - y0)
    let area1 := (bbox1.x1 - bbox1.x0) * (bbox1.y1 - bbox1.y0)
    let area2 := (bbox2.x1 - bbox2.x0) * (bbox2.y1 - bbox2.y0)
    let union := area1 + area2 - intersection
    if union ≤ 0 then 0 else intersection / union

/-- The area of a box as the detectors compute it, `width · height`. -/
def bboxArea (b : BBox) : ℚ := (b.x1 - b.x0) * (b.y1 - b.y0)

/-- A box is valid when `x1 > x0` and `y1 > y0` (§3 of the data model). -/
def ValidBBox (b : BBox) : Prop := b.x0 < b.x1 ∧ b.y0 < b.y1

instance : DecidablePred ValidBBox := fun b => by
  unfold ValidBBox; infer_instance

/-- `merge_bboxes` from `detection_merger.py` (lines 52-71): union box. -/
def merge_bboxes (bbox1 bbox2 : BBox) : BBox :=
  { x0 := min bbox1.x0 bbox2.x0
    y0 := min bbox1.y0 bbox2.y0
    x1 := max bbox1.x1 bbox2.x1
    y1 := max bbox1.y1 bbox2.y1 }

/-- `DetectionMethod` from `models.py`. -/
inductive DetectionMethod where
  | pymupdf
  | opencv
  | both
deriving DecidableEq, Repr

/-- `RawDetection` from `models.py`. -/
structure RawDetection where
  bbox : BBox
  method : DetectionMethod
  confidence : ℚ
  annotation_type : Option String := none
deriving DecidableEq, Repr

/-- `MergedDetection` from `models.py`. -/
structure MergedDetection where
  bbox : BBox
  method : DetectionMethod
  confidence : ℚ
  pymupdf_match : Option RawDetection := none
  opencv_match : Option RawDetection := none
deriving DecidableEq, Repr

/-- One step of the candidate scan in `find_best_match`
(`detection_merger.py` lines 90-97): keep the running best `(index, iou)`
when the candidate's IoU beats it and reaches the threshold. -/
def find_best_match_step (detection : RawDetection) (iou_threshold : ℚ)
    (best : Option (ℕ × ℚ)) (ic : ℕ × RawDetection) : Option (ℕ × ℚ) :=
  let iou := calculate_iou detection.bbox ic.2.bbox
  let best_iou := match best with
    | none => 0
    | some p => p.2
  if best_iou < iou ∧ iou_threshold ≤ iou then some (ic.1, iou) else best

/-- `find_best_match` from `detection_merger.py` (lines 74-101). -/
def find_best_match (detection : RawDetection) (candidates : List RawDetection)
    (iou_threshold : ℚ) : Option (ℕ × ℚ) :=
  (candidates.enum).foldl (find_best_match_step detection iou_threshold) none

/-- Python's stable `sorted` / `list.sort` modelled by the stable insertion
sort: for a total preorder both produce the same (unique) stable ordering. -/
def pySorted {α : Type} (le : α → α → Prop) [DecidableRel le] (l : List α) : List α :=
  l.insertionSort le

/-- The greedy keep-loop of `deduplicate_overlaps`
(`detection_merger.py` lines 203-214): a detection is dropped when it has
IoU at or above the threshold with an already-kept detection. -/
def dedup_keep_loop (iou_threshold : ℚ) (keep : List MergedDetection) :
    List MergedDetection → List MergedDetection
  | [] => keep
  | det :: rest =>
    if keep.any (fun kept_det => iou_threshold ≤ calculate_iou det.bbox kept_det.bbox) then
      dedup_keep_loop iou_threshold keep rest
    else
      dedup_keep_loop iou_threshold (keep ++ [det]) rest

/-- `deduplicate_overlaps` from `detection_merger.py` (lines 181-216):
sort by confidence descending (stable), then greedily drop detections
overlapping an already-kept one with IoU `≥ iou_threshold`. -/
def deduplicate_overlaps (detections : List MergedDetection) (iou_threshold : ℚ) :
    List MergedDetection :=
  if detections.length ≤ 1 then detections
  else
    dedup_keep_loop iou_threshold []
      (pySorted (fun d e : MergedDetection => e.confidence ≤ d.confidence) detections)

/-- One step of the PyMuPDF-matching loop in `merge_detections`
(`detection_merger.py` lines 130-162), threading the merged list and the
set of used pixel-detection indices. -/
def merge_detections_step (pixel_detections : List RawDetection) (iou_threshold : ℚ)
    (acc : List MergedDetection × List ℕ) (pdf_det : RawDetection) :
    List MergedDetection × List ℕ :=
  match find_best_match pdf_det pixel_detections iou_threshold with
  | some (idx, iou) =>
    let pixel_det := pixel_detections.getD idx pdf_det
    let base_confidence := (pdf_det.confidence + pixel_det.confidence) / 2
    let agreement_bonus := (1/10) * iou
    let confidence := min 1 (base_confidence + agreement_bonus)
    (acc.1 ++ [{ bbox := merge_bboxes pdf_det.bbox pixel_det.bbox
                 method := .both
                 confidence := confidence
                 pymupdf_match := some pdf_det
                 opencv_match := some pixel_det }],
     acc.2 ++ [idx])
  | none =>
    (acc.1 ++ [{ bbox := pdf_det.bbox
                 method := .pymupdf
                 confidence := pdf_det.confidence
                 pymupdf_match := some pdf_det
                 opencv_match := none }],
     acc.2)

/-- `merge_detections` from `detection_merger.py` (lines 104-178): match
each PyMuPDF detection against the pixel detections, keep unmatched
detections from either side, then deduplicate.  (The `getD` fallback in the
step function is unreachable: `find_best_match` only returns in-range
indices.) -/
def merge_detections (pdf_detections pixel_detections : List RawDetection)
    (iou_threshold : ℚ) : List MergedDetection :=
  let matched :=
    pdf_detections.foldl (merge_detections_step pixel_detections iou_threshold) ([], [])
  let unmatched_pixel :=
    (pixel_detections.enum).filterMap (fun ic =>
      if ic.1 ∈ matched.2 then none
      else some ({ bbox := ic.2.bbox
                   method := .opencv
                   confidence := ic.2.confidence
                   pymupdf_match := none
                   opencv_match := some ic.2 } : MergedDetection))
  deduplicate_overlaps (matched.1 ++ unmatched_pixel) iou_threshold

/-- A bounding box in pixel coordinates (integers), top-left origin. -/
structure PixelBBox where
  x0 : ℤ
  y0 : ℤ
  x1 : ℤ
  y1 : ℤ
deriving DecidableEq, Repr

/-- `points_to_pixels` from `pixel_detector.py` (lines 166-192): scale each
coordinate by `dpi / 72` and truncate with Python `int`.  The page height
argument is unused in the source ("kept for API compat"). -/
def points_to_pixels (bbox_points : BBox) (page_height_points : ℚ) (dpi : ℤ) : PixelBBox :=
  let scale : ℚ := (dpi : ℚ) / 72
  { x0 := pyInt (bbox_points.x0 * scale)
    y0 := pyInt (bbox_points.y0 * scale)
    x1 := pyInt (bbox_points.x1 * scale)
    y1 := pyInt (bbox_points.y1 * scale) }

/-- `Redaction` from `models.py`, restricted to the fields the verified
claims touch (identification, geometry, detection metadata and multi-line
grouping).  The context, leakage and image-path fields do not feed into any
of the modelled functions.  `multiline_group_id` is a numeric group ordinal
here; the source uses a random `uuid4` prefix, of which only equality
within/between groups is ever observable. -/
structure Redaction where
  doc_id : String := ""
  page_num : ℕ := 1
  redaction_index : ℕ := 0
  bbox_points : BBox
  width_points : ℚ := 0
  height_points : ℚ := 0
  bbox_pixels : PixelBBox := ⟨0, 0, 0, 0⟩
  width_pixels : ℤ := 0
  height_pixels : ℤ := 0
  detection_method : DetectionMethod := .pymupdf
  confidence : ℚ := 1
  is_multiline : Bool := false
  multiline_group_id : Option ℕ := none
  line_index_in_group : Option ℕ := none
deriving DecidableEq, Repr

/-- `PageResult` from `models.py`. -/
structure PageResult where
  page_num : ℕ
  redactions : List Redaction := []
  error : Option String := none
deriving DecidableEq, Repr

/-- `DocumentResult` from `models.py`. -/
structure DocumentResult where
  doc_id : String
  file_path : String
  total_pages : ℕ := 0
  pages : List PageResult := []
  error : Option String := none
deriving DecidableEq, Repr

/-- The per-detection `Redaction` construction of `process_page`
(`parallel.py` lines 83-135): detection `i` of the merged list becomes the
redaction with `redaction_index = i`, carrying the detection's bbox in
points and its pixel conversion. -/
def process_page_loop (merged : List MergedDetection) (page_height : ℚ) (dpi : ℤ)
    (doc_id : String) (page_num : ℕ) : List Redaction :=
  (merged.enum).map (fun idet =>
    let detection := idet.2
    let bbox_pixels := points_to_pixels detection.bbox page_height dpi
    { doc_id := doc_id
      page_num := page_num
      redaction_index := idet.1
      bbox_points := detection.bbox
      width_points := detection.bbox.x1 - detection.bbox.x0
      height_points := detection.bbox.y1 - detection.bbox.y0
      bbox_pixels := bbox_pixels
      width_pixels := bbox_pixels.x1 - bbox_pixels.x0
      height_pixels := bbox_pixels.y1 - bbox_pixels.y0
      detection_method := detection.method
      confidence := detection.confidence })

/-- `TextSpan` from `context_analyzer.py`. -/
structure TextSpan where
  text : String
  bbox : BBox
  font_size : ℚ
  font_name : String := ""
  char_width : ℚ
deriving DecidableEq, Repr

/-- `estimate_character_count` from `context_analyzer.py` (lines 163-208):
weighted average character width over nearby spans, redaction width divided
by it and truncated with `int(...)`, with a `width / 6.0` fallback when no
spans (or no characters) are available. -/
def estimate_character_count (redaction_bbox : BBox) (nearby_spans : List TextSpan) :
    ℤ × Option ℚ × Option ℚ :=
  if nearby_spans = [] then
    let redaction_width := redaction_bbox.x1 - redaction_bbox.x0
    let estimated := pyInt (redaction_width / 6)
    (max 1 estimated, none, none)
  else
    let total_chars : ℕ := (nearby_spans.map (fun s => s.text.length)).sum
    let total_width : ℚ := (nearby_spans.map (fun s => s.char_width * (s.text.length : ℚ))).sum
    let font_sizes : List ℚ := nearby_spans.map (fun s => s.font_size)
    if total_chars = 0 then
      let redaction_width := redaction_bbox.x1 - redaction_bbox.x0
      (max 1 (pyInt (redaction_width / 6)), none, none)
    else
      let avg_char_width := total_width / (total_chars : ℚ)
      let avg_font_size := font_sizes.sum / (font_sizes.length : ℚ)
      let redaction_width := redaction_bbox.x1 - redaction_bbox.x0
      let estimated_chars := pyInt (redaction_width / avg_char_width)
      (max 1 estimated_chars, some avg_font_size, some avg_char_width)

/-- The weighted average character width of the claim and of
`estimate_character_count`: `Σ (char_width_i · len_i) / Σ len_i`. -/
def weightedAvgCharWidth (spans : List TextSpan) : ℚ :=
  ((spans.map (fun s => s.char_width * (s.text.length : ℚ))).sum) /
    (((spans.map (fun s => s.text.length)).sum : ℕ) : ℚ)

/-- The body of the `try` in `process_page` (`parallel.py` lines 51-147) is
abstracted as an `Except`-valued pipeline outcome: `.ok rs` when the page
pipeline produces redactions `rs`, `.error e` when it raises an exception
with message `e` (`str(exception)`).  This function is the `try/except`
wrapper itself (lines 51, 146-150). -/
def process_page_result (page_num : ℕ)
    (pipeline : Except String (List Redaction)) : PageResult :=
  match pipeline with
  | .ok redactions => { page_num := page_num, redactions := redactions, error := none }
  | .error e => { page_num := page_num, redactions := [], error := some e }

/-- `process_document` (`parallel.py` lines 153-202): opening the document
either fails with an exception message, or yields one pipeline outcome per
page; pages are processed in order with 1-indexed page numbers, and the
whole body is wrapped in `try/except`. -/
def process_document_result (doc_id file_path : String)
    (opened : Except String (List (Except String (List Redaction)))) : DocumentResult :=
  match opened with
  | .error e =>
    { doc_id := doc_id, file_path := file_path, total_pages := 0, pages := [], error := some e }
  | .ok page_outcomes =>
    { doc_id := doc_id
      file_path := file_path
      total_pages := page_outcomes.length
      pages := (page_outcomes.enum).map (fun io => process_page_result (io.1 + 1) io.2)
      error := none }

/-- The corpus loop of `process_corpus` (`parallel.py` lines 251-269):
every document contributes exactly one `DocumentResult`, independently of
the others. -/
def process_corpus_result
    (docs : List (String × String × Except String (List (Except String (List Redaction))))) :
    List DocumentResult :=
  docs.map (fun d => process_document_result d.1 d.2.1 d.2.2)

/-- `MultilineGroup` from `multiline_merger.py`.  The `group_id` is the
group's ordinal (the source draws a random `uuid4` prefix; only id equality
is observable). -/
structure MultilineGroup where
  group_id : ℕ
  redactions : List Redaction
deriving DecidableEq, Repr

/-- `estimate_line_height` from `multiline_merger.py` (lines 30-53):
`1.3 ×` the median bar height (`heights[len // 2]` after an ascending
sort). -/
def estimate_line_height (redactions : List Redaction) : ℚ :=
  if redactions = [] then 14
  else
    let heights := pySorted (· ≤ ·) (redactions.map (fun r => r.height_points))
    let median_height := heights.getD (heights.length / 2) 0
    median_height * (13/10)

/-- `is_at_right_margin` from `multiline_merger.py` (lines 56-74). -/
def is_at_right_margin (redaction : Redaction) (page_width : ℚ)
    (margin_threshold : ℚ) : Bool :=
  page_width - redaction.bbox_points.x1 ≤ margin_threshold

/-- `is_at_left_margin` from `multiline_merger.py` (lines 77-94); the
`left_margin` parameter defaults to 50 at every call site. -/
def is_at_left_margin (redaction : Redaction) (left_margin : ℚ)
    (margin_threshold : ℚ) : Bool :=
  redaction.bbox_points.x0 ≤ left_margin + margin_threshold

/-- `is_on_next_line` from `multiline_merger.py` (lines 97-130): the
vertical gap `redaction1.y0 − redaction2.y1` must lie in
`[−tolerance, 2·line_height]`.  (The source's comment asserts that PyMuPDF
y grows upward; the bboxes it receives are in fact top-left-origin with y
growing downward, see `pixels_to_points` in `pixel_detector.py`.) -/
def is_on_next_line (redaction1 redaction2 : Redaction) (line_height : ℚ)
    (tolerance : ℚ) : Bool :=
  let vertical_gap := redaction1.bbox_points.y0 - redaction2.bbox_points.y1
  if vertical_gap < -tolerance then false
  else if line_height * 2 < vertical_gap then false
  else true

/-- The inner continuation scan of `find_multiline_groups`
(`multiline_merger.py` lines 180-202), Python's
`for j in range(i + 1, n)` with `break` rendered as structural recursion
over the remaining index list: from each index `j` look for a bar at the
left margin on the next line; extend the group, and keep scanning only
while the found bar also reaches the right margin.  (`get?`'s `none` case
is unreachable: every scanned index is in range.) -/
def find_continuations (sorted_redactions : List Redaction) (page_width : ℚ)
    (margin_threshold : ℚ) (line_height : ℚ) (tolerance : ℚ)
    (current : Redaction) (members : List Redaction) (used : List ℕ) :
    List ℕ → List Redaction × List ℕ
  | [] => (members, used)
  | j :: rest =>
    if j ∈ used then
      find_continuations sorted_redactions page_width margin_threshold line_height tolerance
        current members used rest
    else
      match sorted_redactions.get? j with
      | none => (members, used)
      | some next_red =>
        if ¬ is_at_left_margin next_red 50 margin_threshold then
          find_continuations sorted_redactions page_width margin_threshold line_height
            tolerance current members used rest
        else if ¬ is_on_next_line current next_red line_height tolerance then
          find_continuations sorted_redactions page_width margin_threshold line_height
            tolerance current members used rest
        else
          if is_at_right_margin next_red page_width margin_threshold then
            find_continuations sorted_redactions page_width margin_threshold line_height
              tolerance next_red (members ++ [next_red]) (used ++ [j]) rest
          else
            (members ++ [next_red], used ++ [j])

/-- The outer loop of `find_multiline_groups` (`multiline_merger.py`
lines 168-210), Python's `for i in range(n)` as structural recursion over
the index list: each unused bar that reaches the right margin seeds a
group; a group is emitted only when a continuation was found.  The indices
remaining after `i` are exactly Python's `range(i + 1, n)` for the inner
scan. -/
def find_groups_loop (sorted_redactions : List Redaction) (page_width : ℚ)
    (margin_threshold : ℚ) (line_height : ℚ) (tolerance : ℚ) :
    List ℕ → List ℕ → List MultilineGroup → List MultilineGroup
  | [], _, groups => groups
  | i :: rest, used, groups =>
    if i ∈ used then
      find_groups_loop sorted_redactions page_width margin_threshold line_height tolerance
        rest used groups
    else
      match sorted_redactions.get? i with
      | none =>
        find_groups_loop sorted_redactions page_width margin_threshold line_height tolerance
          rest used groups
      | some redaction =>
        if ¬ is_at_right_margin redaction page_width margin_threshold then
          find_groups_loop sorted_redactions page_width margin_threshold line_height
            tolerance rest used groups
        else
          let scan := find_continuations sorted_redactions page_width margin_threshold
            line_height tolerance redaction [redaction] used rest
          if 1 < scan.1.length then
            find_groups_loop sorted_redactions page_width margin_threshold line_height
              tolerance rest (scan.2 ++ [i]) (groups ++ [⟨groups.length, scan.1⟩])
          else
            find_groups_loop sorted_redactions page_width margin_threshold line_height
              tolerance rest scan.2 groups

/-- `find_multiline_groups` from `multiline_merger.py` (lines 133-212):
sort by the key `(-y1, x0)` and greedily group margin-to-margin
continuations. -/
def find_multiline_groups (redactions : List Redaction) (page_width : ℚ)
    (margin_threshold : ℚ) (line_height_tolerance : ℚ) : List MultilineGroup :=
  if redactions.length < 2 then []
  else
    let sorted_redactions := pySorted
      (fun r s : Redaction =>
        s.bbox_points.y1 < r.bbox_points.y1 ∨
          (r.bbox_points.y1 = s.bbox_points.y1 ∧ r.bbox_points.x0 ≤ s.bbox_points.x0))
      redactions
    let line_height := estimate_line_height redactions
    find_groups_loop sorted_redactions page_width margin_threshold line_height
      line_height_tolerance (List.range sorted_redactions.length) [] []

/-- The `redaction_to_group` dict of `merge_multiline_redactions`
(`multiline_merger.py` lines 247-252), keyed by `bbox_points`; later
writes overwrite earlier ones, as in a Python dict. -/
def redaction_to_group (groups : List MultilineGroup) : BBox → Option (ℕ × ℕ × ℕ) :=
  groups.foldl
    (fun m g =>
      (g.redactions.enum).foldl
        (fun m' ir => fun key =>
          if key = ir.2.bbox_points then some (g.group_id, ir.1, g.redactions.length)
          else m' key)
        m)
    (fun _ => none)

/-- `merge_multiline_redactions` from `multiline_merger.py`
(lines 215-263): mark every redaction whose bbox belongs to a group with
the group id and its line index. -/
def merge_multiline_redactions (redactions : List Redaction) (page_width : ℚ)
    (margin_threshold : ℚ) (line_height_tolerance : ℚ) : List Redaction :=
  let groups := find_multiline_groups redactions page_width margin_threshold
    line_height_tolerance
  let to_group := redaction_to_group groups
  redactions.map (fun redaction =>
    match to_group redaction.bbox_points with
    | some gi =>
      { redaction with
        is_multiline := true
        multiline_group_id := some gi.1
        line_index_in_group := some gi.2.1 }
    | none => redaction)

/-- The redaction-construction and multi-line phase of `process_page`
(`parallel.py` lines 74-146): merge the two detector outputs, build the
indexed redactions, then annotate multi-line groups. -/
def process_page_core (pdf_detections pixel_detections : List RawDetection)
    (page_width page_height : ℚ) (dpi : ℤ) (iou_threshold : ℚ)
    (margin_threshold : ℚ) (line_height_tolerance : ℚ)
    (doc_id : String) (page_num : ℕ) : List Redaction :=
  let merged := merge_detections pdf_detections pixel_detections iou_threshold
  let redactions := process_page_loop merged page_height dpi doc_id page_num
  if redactions = [] then redactions
  else merge_multiline_redactions redactions page_width margin_threshold
    line_height_tolerance

/-- The gap report of `_measure_precise_gap` (`views.py` lines 1272-1353). -/
structure GapInfo where
  gap_pt : ℚ
  char_before : String
  char_after : String
  needs_space_before : Bool
  needs_space_after : Bool
  font_size_pt : ℚ
deriving DecidableEq, Repr

/-- The result-assembly step of `_measure_precise_gap` (`views.py`
lines 1336-1353), given the located neighbours: `gap_pt` is clamped at 0
and a padding space is required on a side exactly when that side's
neighbouring character is not whitespace.  (The char-scanning loop that
locates `last_before` / `first_after` is not modelled; no claim depends
on it.) -/
def mkGapInfo (last_before_right first_after_x : ℚ) (char_b char_a : String)
    (avg_fs : ℚ) : GapInfo :=
  { gap_pt := max 0 (first_after_x - last_before_right)
    char_before := char_b
    char_after := char_a
    needs_space_before := char_b.trim ≠ ""
    needs_space_after := char_a.trim ≠ ""
    font_size_pt := avg_fs }

/-- One character's contribution in `_compute_candidate_width_pt`
(`views.py` lines 1257-1268): profile advance when present, otherwise the
font's glyph advance scaled plus letter spacing (or `0.5·scale_x` when the
font has no positive advance), plus word spacing for a space. -/
def candidate_char_width (glyph_advance : Char → Option ℚ)
    (scale_x letter_spacing_norm word_spacing_norm : ℚ)
    (profile : List (Char × ℚ)) (total : ℚ) (ch : Char) : ℚ :=
  if profile ≠ [] ∧ (profile.lookup ch).isSome then
    total + (profile.lookup ch).getD 0
  else
    let total' :=
      match glyph_advance ch with
      | some adv => if 0 < adv then total + (adv * scale_x + letter_spacing_norm)
                    else total + (1/2) * scale_x
      | none => total + (1/2) * scale_x
    if ch = ' ' then total' + word_spacing_norm else total'

/-- `_compute_candidate_width_pt` from `views.py` (lines 1246-1269): width
of a string in normalised units (at 1 pt).  The external `font_obj` is
abstracted as its `glyph_advance` lookup; the `profile` dict as an
association list. -/
def compute_candidate_width_pt (text : List Char) (glyph_advance : Char → Option ℚ)
    (scale_x letter_spacing_norm word_spacing_norm : ℚ)
    (profile : List (Char × ℚ)) : ℚ :=
  text.foldl
    (candidate_char_width glyph_advance scale_x letter_spacing_norm word_spacing_norm profile)
    0

/-- One entry of the list `_filter_by_width` returns. -/
structure WidthResult where
  text : String
  width_pt : ℚ
  width_ratio : ℚ
  width_fit : ℚ
deriving DecidableEq, Repr

/-- `_filter_by_width` from `views.py` (lines 1356-1404): pad the candidate
according to the gap report, compare its rendered width to the gap width
(precise) or the redaction width, with 3% tolerance when precise and the
`tolerance` parameter (default 0.15) otherwise.  The stored fields are
rounded with Python `round(x, 2)` / `round(x, 3)`. -/
def filter_by_width (candidates : List String) (redaction_width_pt : ℚ)
    (glyph_advance : Char → Option ℚ) (font_size_pt : ℚ)
    (scale_x : ℚ) (tolerance : ℚ)
    (letter_spacing_norm word_spacing_norm : ℚ)
    (profile : List (Char × ℚ)) (gap_info : Option GapInfo) : List WidthResult :=
  let precise := gap_info.isSome
  let target_width := match gap_info with
    | some gi => gi.gap_pt
    | none => redaction_width_pt
  let tol := if precise then (3/100) else tolerance
  let pad_before := match gap_info with
    | some gi => if gi.needs_space_before then " " else ""
    | none => ""
  let pad_after := match gap_info with
    | some gi => if gi.needs_space_after then " " else ""
    | none => ""
  candidates.map (fun cand_text =>
    let full_text := pad_before ++ cand_text ++ pad_after
    let width_at_1pt := compute_candidate_width_pt full_text.toList glyph_advance
      scale_x letter_spacing_norm word_spacing_norm profile
    let cand_width_pt := width_at_1pt * font_size_pt
    let fit : ℚ :=
      if target_width ≤ 0 then 0
      else
        let ratio := cand_width_pt / target_width
        if |ratio - 1| ≤ tol then 1 - |ratio - 1| / tol else 0
    { text := cand_text
      width_pt := pyRoundTo 2 cand_width_pt
      width_ratio := pyRoundTo 3 (cand_width_pt / max target_width (1/100))
      width_fit := pyRoundTo 3 fit })

/-- The four edge bands chosen by `_analyze_leakage_letterforms`
(`views.py` lines 1429-1477): row/column half-open ranges on the page
raster, after clipping to the image and skipping the anti-alias inset. -/
structure LeakageBands where
  ascender_band_h : ℤ
  descender_band_h : ℤ
  edge_band_w : ℤ
  aa_inset : ℤ
  top_rows : ℤ × ℤ
  bottom_rows : ℤ × ℤ
  left_cols : ℤ × ℤ
  right_cols : ℤ × ℤ
deriving DecidableEq, Repr

/-- The band-geometry part of `_analyze_leakage_letterforms` (`views.py`
lines 1429-1477): band thicknesses from the font size in pixels, and the
clipped band extents around the redaction bbox `(x0, y0, x1, y1)` on an
`h × w` raster.  (The dark-fragment scan inside each band is not modelled;
no claim depends on it.) -/
def analyze_leakage_letterforms_bands (h w : ℤ) (x0 y0 x1 y1 : ℤ)
    (font_size_px : ℚ) (dpi : ℤ) : LeakageBands :=
  let ascender_band_h := max 3 (pyInt (font_size_px * (25/100)))
  let descender_band_h := max 3 (pyInt (font_size_px * (20/100)))
  let edge_band_w := max 3 (pyInt (font_size_px * (30/100)))
  let aa_inset := max 2 (pyInt ((dpi : ℚ) / 100))
  { ascender_band_h := ascender_band_h
    descender_band_h := descender_band_h
    edge_band_w := edge_band_w
    aa_inset := aa_inset
    top_rows := (max 0 (y0 - ascender_band_h - aa_inset), max 0 (y0 - aa_inset))
    bottom_rows := (min h (y1 + aa_inset), min h (y1 + descender_band_h + aa_inset))
    left_cols := (max 0 (x0 - edge_band_w - aa_inset), max 0 (x0 - aa_inset))
    right_cols := (min w (x1 + aa_inset), min w (x1 + edge_band_w + aa_inset)) }

/-- Python's `str.isalnum`, modelled faithfully for code points up to
U+00FF (ASCII and the Latin-1 supplement: the letters `ª µ º À-ÿ` except
`× ÷`, and the numerics `² ³ ¹ ¼ ½ ¾`).  Code points above U+00FF are
outside the model and mapped to `false`; no claim below evaluates it
there. -/
def pyIsAlnum (c : Char) : Bool :=
  c.isAlphanum ||
    (c.toNat = 0xAA || c.toNat = 0xB5 || c.toNat = 0xBA ||
     c.toNat = 0xB2 || c.toNat = 0xB3 || c.toNat = 0xB9 ||
     (0xBC ≤ c.toNat && c.toNat ≤ 0xBE) ||
     (0xC0 ≤ c.toNat && c.toNat ≤ 0xFF && c.toNat ≠ 0xD7 && c.toNat ≠ 0xF7))

/-- The doc-id sanitisation of `generate_crop_filename`
(`image_cropper.py` line 133): keep alphanumerics and `. _ -`, replace
every other character by `_`. -/
def sanitizeDocId (doc_id : String) : String :=
  String.mk (doc_id.data.map (fun c =>
    if pyIsAlnum c || c = '.' || c = '_' || c = '-' then c else '_'))

/-- The decimal digit character for `d < 10`. -/
def digitChar (d : ℕ) : Char := Char.ofNat (48 + d)

/-- Decimal rendering of a natural number, fuelled structural recursion
(the fuel `n + 1` always suffices). -/
def natDecimalAux : ℕ → ℕ → List Char
  | 0, _ => []
  | fuel + 1, n =>
    if n < 10 then [digitChar n]
    else natDecimalAux fuel (n / 10) ++ [digitChar (n % 10)]

/-- Python `str(n)` / f-string interpolation of a non-negative int. -/
def natDecimal (n : ℕ) : List Char := natDecimalAux (n + 1) n

/-- `generate_crop_filename` from `image_cropper.py` (lines 114-135):
`f"{safe_doc_id}_p{page_num}_r{redaction_index}_{crop_type}.png"`. -/
def generate_crop_filename (doc_id : String) (page_num : ℕ) (redaction_index : ℕ)
    (crop_type : String) : String :=
  String.mk ((sanitizeDocId doc_id).data
    ++ '_' :: 'p' :: natDecimal page_num
    ++ '_' :: 'r' :: natDecimal redaction_index
    ++ '_' :: crop_type.data
    ++ ".png".data)

/-- The decimal value of a digit string (left fold); inverse of
`natDecimal`, used to prove filename injectivity. -/
def decimalValue (l : List Char) : ℕ :=
  l.foldl (fun a c => 10 * a + (c.toNat - 48)) 0

/-- A character in `0`-`9` (code points 48-57). -/
def isDecimalDigit (c : Char) : Prop := 48 ≤ c.toNat ∧ c.toNat ≤ 57

instance : DecidablePred isDecimalDigit := fun c => by
  unfold isDecimalDigit; infer_instance

/-- A concrete two-bar page: the upper bar `(0, 0, 50, 10)` has confidence
0.8, the lower bar `(0, 100, 50, 110)` confidence 0.9; no pixel
detections; default parameters (`dpi = 150`, `iou_threshold = 0.7`,
`margin_threshold = 50`, `line_height_tolerance = 5`) on a 595 × 842 pt
page. -/
def twoBarPageRedactions : List Redaction :=
  process_page_core
    [⟨⟨0, 0, 50, 10⟩, .pymupdf, 8/10, none⟩, ⟨⟨0, 100, 50, 110⟩, .pymupdf, 9/10, none⟩]
    [] 595 842 150 (7/10) 50 5 "doc" 1

theorem ratFloor_eq_floor (q : ℚ) : ratFloor q = ⌊q⌋ := by
  rw [ratFloor, Rat.floor_def]

theorem pyInt_eq_floor {q : ℚ} (h : 0 ≤ q) : pyInt q = ⌊q⌋ := by
  rw [pyInt, if_pos h, ratFloor_eq_floor]

theorem calculate_iou_comm (a b : BBox) : calculate_iou a b = calculate_iou b a := by
  simp only [calculate_iou]
  rw [max_comm a.x0 b.x0, max_comm a.y0 b.y0, min_comm a.x1 b.x1, min_comm a.y1 b.y1,
    add_comm ((a.x1 - a.x0) * (a.y1 - a.y0)) ((b.x1 - b.x0) * (b.y1 - b.y0))]

theorem calculate_iou_zero_of_empty_clip (a b : BBox)
    (h : min a.x1 b.x1 ≤ max a.x0 b.x0 ∨ min a.y1 b.y1 ≤ max a.y0 b.y0) :
    calculate_iou a b = 0 := by
  simp only [calculate_iou]
  rw [if_pos h]

theorem calculate_iou_zero_of_zero_area (a b : BBox)
    (h : bboxArea a = 0 ∨ bboxArea b = 0) : calculate_iou a b = 0 := by
  apply calculate_iou_zero_of_empty_clip
  rcases h with h | h <;> rcases mul_eq_zero.mp h with h' | h'
  · exact Or.inl (le_trans (min_le_left _ _) (by linarith [le_max_left a.x0 b.x0]))
  · exact Or.inr (le_trans (min_le_left _ _) (by linarith [le_max_left a.y0 b.y0]))
  · exact Or.inl (le_trans (min_le_right _ _) (by linarith [le_max_right a.x0 b.x0]))
  · exact Or.inr (le_trans (min_le_right _ _) (by linarith [le_max_right a.y0 b.y0]))

theorem inter_le_bboxArea_left (a b : BBox)
    (hx : max a.x0 b.x0 < min a.x1 b.x1) (hy : max a.y0 b.y0 < min a.y1 b.y1) :
    (min a.x1 b.x1 - max a.x0 b.x0) * (min a.y1 b.y1 - max a.y0 b.y0) ≤ bboxArea a := by
  have h1 : min a.x1 b.x1 - max a.x0 b.x0 ≤ a.x1 - a.x0 := by
    have := min_le_left a.x1 b.x1
    have := le_max_left a.x0 b.x0
    linarith
  have h2 : min a.y1 b.y1 - max a.y0 b.y0 ≤ a.y1 - a.y0 := by
    have := min_le_left a.y1 b.y1
    have := le_max_left a.y0 b.y0
    linarith
  have hih : (0:ℚ) ≤ min a.y1 b.y1 - max a.y0 b.y0 := by linarith
  have hiw : (0:ℚ) ≤ min a.x1 b.x1 - max a.x0 b.x0 := by linarith
  calc (min a.x1 b.x1 - max a.x0 b.x0) * (min a.y1 b.y1 - max a.y0 b.y0)
      ≤ (a.x1 - a.x0) * (min a.y1 b.y1 - max a.y0 b.y0) :=
        mul_le_mul_of_nonneg_right h1 hih
    _ ≤ (a.x1 - a.x0) * (a.y1 - a.y0) :=
        mul_le_mul_of_nonneg_left h2 (by linarith)
    _ = bboxArea a := rfl

theorem inter_le_bboxArea_right (a b : BBox)
    (hx : max a.x0 b.x0 < min a.x1 b.x1) (hy : max a.y0 b.y0 < min a.y1 b.y1) :
    (min a.x1 b.x1 - max a.x0 b.x0) * (min a.y1 b.y1 - max a.y0 b.y0) ≤ bboxArea b := by
  have h := inter_le_bboxArea_left b a
    (by rw [min_comm, max_comm]; exact hx) (by rw [min_comm, max_comm]; exact hy)
  rw [min_comm b.x1 a.x1, max_comm b.x0 a.x0, min_comm b.y1 a.y1, max_comm b.y0 a.y0] at h
  exact h

theorem calculate_iou_eq_div (a b : BBox)
    (hx : max a.x0 b.x0 < min a.x1 b.x1) (hy : max a.y0 b.y0 < min a.y1 b.y1) :
    calculate_iou a b =
      ((min a.x1 b.x1 - max a.x0 b.x0) * (min a.y1 b.y1 - max a.y0 b.y0)) /
        (bboxArea a + bboxArea b -
          (min a.x1 b.x1 - max a.x0 b.x0) * (min a.y1 b.y1 - max a.y0 b.y0)) := by
  have hinter : (0:ℚ) < (min a.x1 b.x1 - max a.x0 b.x0) * (min a.y1 b.y1 - max a.y0 b.y0) :=
    mul_pos (by linarith) (by linarith)
  have hb := inter_le_bboxArea_right a b hx hy
  have hunion : (0:ℚ) < bboxArea a + bboxArea b -
      (min a.x1 b.x1 - max a.x0 b.x0) * (min a.y1 b.y1 - max a.y0 b.y0) := by
    have ha := inter_le_bboxArea_left a b hx hy
    linarith
  simp only [calculate_iou, bboxArea] at *
  rw [if_neg (by push_neg; constructor <;> linarith), if_neg (by linarith)]

theorem calculate_iou_nonneg (a b : BBox) : 0 ≤ calculate_iou a b := by
  by_cases hcond : min a.x1 b.x1 ≤ max a.x0 b.x0 ∨ min a.y1 b.y1 ≤ max a.y0 b.y0
  · rw [calculate_iou_zero_of_empty_clip a b hcond]
  · push_neg at hcond
    rw [calculate_iou_eq_div a b hcond.1 hcond.2]
    have ha := inter_le_bboxArea_left a b hcond.1 hcond.2
    have hb := inter_le_bboxArea_right a b hcond.1 hcond.2
    have hinter : (0:ℚ) ≤ (min a.x1 b.x1 - max a.x0 b.x0) * (min a.y1 b.y1 - max a.y0 b.y0) :=
      le_of_lt (mul_pos (by linarith [hcond.1]) (by linarith [hcond.2]))
    exact div_nonneg hinter (by linarith)

theorem calculate_iou_le_one (a b : BBox) : calculate_iou a b ≤ 1 := by
  by_cases hcond : min a.x1 b.x1 ≤ max a.x0 b.x0 ∨ min a.y1 b.y1 ≤ max a.y0 b.y0
  · rw [calculate_iou_zero_of_empty_clip a b hcond]; norm_num
  · push_neg at hcond
    rw [calculate_iou_eq_div a b hcond.1 hcond.2]
    have ha := inter_le_bboxArea_left a b hcond.1 hcond.2
    have hb := inter_le_bboxArea_right a b hcond.1 hcond.2
    have hinter : (0:ℚ) < (min a.x1 b.x1 - max a.x0 b.x0) * (min a.y1 b.y1 - max a.y0 b.y0) :=
      mul_pos (by linarith [hcond.1]) (by linarith [hcond.2])
    rw [div_le_one (by linarith)]
    linarith

theorem calculate_iou_eq_one_iff (a b : BBox) (ha : ValidBBox a) (hb : ValidBBox b) :
    (calculate_iou a b = 1 ↔ a = b) := by
  obtain ⟨hax, hay⟩ := ha
  obtain ⟨hbx, hby⟩ := hb
  constructor
  · intro h1
    by_cases hcond : min a.x1 b.x1 ≤ max a.x0 b.x0 ∨ min a.y1 b.y1 ≤ max a.y0 b.y0
    · rw [calculate_iou_zero_of_empty_clip a b hcond] at h1
      norm_num at h1
    · push_neg at hcond
      obtain ⟨hx, hy⟩ := hcond
      rw [calculate_iou_eq_div a b hx hy] at h1
      have hA := inter_le_bboxArea_left a b hx hy
      have hB := inter_le_bboxArea_right a b hx hy
      have hiw : (0:ℚ) < min a.x1 b.x1 - max a.x0 b.x0 := by linarith
      have hih : (0:ℚ) < min a.y1 b.y1 - max a.y0 b.y0 := by linarith
      have hinter : (0:ℚ) < (min a.x1 b.x1 - max a.x0 b.x0) * (min a.y1 b.y1 - max a.y0 b.y0) :=
        mul_pos hiw hih
      have hunion : (0:ℚ) < bboxArea a + bboxArea b -
          (min a.x1 b.x1 - max a.x0 b.x0) * (min a.y1 b.y1 - max a.y0 b.y0) := by linarith
      rw [div_eq_one_iff_eq (ne_of_gt hunion)] at h1
      -- intersection area equals both box areas
      have hIA : (min a.x1 b.x1 - max a.x0 b.x0) * (min a.y1 b.y1 - max a.y0 b.y0)
          = bboxArea a := by linarith
      have hIB : (min a.x1 b.x1 - max a.x0 b.x0) * (min a.y1 b.y1 - max a.y0 b.y0)
          = bboxArea b := by linarith
      -- hence the clipped box has the full width and height of each box
      have hwA : min a.x1 b.x1 - max a.x0 b.x0 = a.x1 - a.x0 := by
        by_contra hne
        have hlt : min a.x1 b.x1 - max a.x0 b.x0 < a.x1 - a.x0 := by
          rcases lt_or_eq_of_le (by
            have := min_le_left a.x1 b.x1
            have := le_max_left a.x0 b.x0
            linarith : min a.x1 b.x1 - max a.x0 b.x0 ≤ a.x1 - a.x0) with h | h
          · exact h
          · exact absurd h hne
        have hhA : min a.y1 b.y1 - max a.y0 b.y0 ≤ a.y1 - a.y0 := by
          have := min_le_left a.y1 b.y1
          have := le_max_left a.y0 b.y0
          linarith
        have : (min a.x1 b.x1 - max a.x0 b.x0) * (min a.y1 b.y1 - max a.y0 b.y0)
            < bboxArea a := by
          unfold bboxArea
          nlinarith
        linarith
      have hhA : min a.y1 b.y1 - max a.y0 b.y0 = a.y1 - a.y0 := by
        by_contra hne
        have hle : min a.y1 b.y1 - max a.y0 b.y0 ≤ a.y1 - a.y0 := by
          have := min_le_left a.y1 b.y1
          have := le_max_left a.y0 b.y0
          linarith
        have hlt : min a.y1 b.y1 - max a.y0 b.y0 < a.y1 - a.y0 :=
          lt_of_le_of_ne hle hne
        have : (min a.x1 b.x1 - max a.x0 b.x0) * (min a.y1 b.y1 - max a.y0 b.y0)
            < bboxArea a := by
          unfold bboxArea
          nlinarith
        linarith
      have hwB : min a.x1 b.x1 - max a.x0 b.x0 = b.x1 - b.x0 := by
        by_contra hne
        have hle : min a.x1 b.x1 - max a.x0 b.x0 ≤ b.x1 - b.x0 := by
          have := min_le_right a.x1 b.x1
          have := le_max_right a.x0 b.x0
          linarith
        have hlt : min a.x1 b.x1 - max a.x0 b.x0 < b.x1 - b.x0 :=
          lt_of_le_of_ne hle hne
        have hhB : min a.y1 b.y1 - max a.y0 b.y0 ≤ b.y1 - b.y0 := by
          have := min_le_right a.y1 b.y1
          have := le_max_right a.y0 b.y0
          linarith
        have : (min a.x1 b.x1 - max a.x0 b.x0) * (min a.y1 b.y1 - max a.y0 b.y0)
            < bboxArea b := by
          unfold bboxArea
          nlinarith
        linarith
      have hhB : min a.y1 b.y1 - max a.y0 b.y0 = b.y1 - b.y0 := by
        by_contra hne
        have hle : min a.y1 b.y1 - max a.y0 b.y0 ≤ b.y1 - b.y0 := by
          have := min_le_right a.y1 b.y1
          have := le_max_right a.y0 b.y0
          linarith
        have hlt : min a.y1 b.y1 - max a.y0 b.y0 < b.y1 - b.y0 :=
          lt_of_le_of_ne hle hne
        have : (min a.x1 b.x1 - max a.x0 b.x0) * (min a.y1 b.y1 - max a.y0 b.y0)
            < bboxArea b := by
          unfold bboxArea
          nlinarith
        linarith
      -- full width/height forces the min/max to hit each box's edges
      have e1 : a.x1 = b.x1 := by
        have m1 := min_le_left a.x1 b.x1
        have m2 := min_le_right a.x1 b.x1
        have m3 := le_max_left a.x0 b.x0
        have m4 := le_max_right a.x0 b.x0
        have : min a.x1 b.x1 = a.x1 := by linarith
        have : min a.x1 b.x1 = b.x1 := by linarith
        linarith [min_le_left a.x1 b.x1]
      have e2 : a.x0 = b.x0 := by
        have m1 := min_le_left a.x1 b.x1
        have m2 := min_le_right a.x1 b.x1
        have m3 := le_max_left a.x0 b.x0
        have m4 := le_max_right a.x0 b.x0
        have : max a.x0 b.x0 = a.x0 := by linarith
        have : max a.x0 b.x0 = b.x0 := by linarith
        linarith [le_max_left a.x0 b.x0]
      have e3 : a.y1 = b.y1 := by
        have m1 := min_le_left a.y1 b.y1
        have m2 := min_le_right a.y1 b.y1
        have m3 := le_max_left a.y0 b.y0
        have m4 := le_max_right a.y0 b.y0
        have : min a.y1 b.y1 = a.y1 := by linarith
        have : min a.y1 b.y1 = b.y1 := by linarith
        linarith [min_le_left a.y1 b.y1]
      have e4 : a.y0 = b.y0 := by
        have m1 := min_le_left a.y1 b.y1
        have m2 := min_le_right a.y1 b.y1
        have m3 := le_max_left a.y0 b.y0
        have m4 := le_max_right a.y0 b.y0
        have : max a.y0 b.y0 = a.y0 := by linarith
        have : max a.y0 b.y0 = b.y0 := by linarith
        linarith [le_max_left a.y0 b.y0]
      cases a; cases b
      simp only [BBox.mk.injEq]
      exact ⟨e2, e4, e1, e3⟩
  · rintro rfl
    have hx : max a.x0 a.x0 < min a.x1 a.x1 := by simp [hax]
    have hy : max a.y0 a.y0 < min a.y1 a.y1 := by simp [hay]
    rw [calculate_iou_eq_div a a hx hy]
    have harea : (0:ℚ) < bboxArea a := mul_pos (by linarith) (by linarith)
    have hsimp : (min a.x1 a.x1 - max a.x0 a.x0) * (min a.y1 a.y1 - max a.y0 a.y0)
        = bboxArea a := by
      simp [bboxArea]
    rw [hsimp]
    have : bboxArea a + bboxArea a - bboxArea a = bboxArea a := by ring
    rw [this, div_self (ne_of_gt harea)]

/-- C8: `calculate_iou` is symmetric and lies in `[0, 1]`; it returns 0
whenever either box has zero area or the boxes do not intersect (empty
clipped box); and for valid boxes it equals 1 exactly when the boxes are
identical. -/
theorem calculate_iou_spec :
    (∀ a b : BBox, calculate_iou a b = calculate_iou b a) ∧
    (∀ a b : BBox, 0 ≤ calculate_iou a b ∧ calculate_iou a b ≤ 1) ∧
    (∀ a b : BBox, bboxArea a = 0 ∨ bboxArea b = 0 → calculate_iou a b = 0) ∧
    (∀ a b : BBox, min a.x1 b.x1 ≤ max a.x0 b.x0 ∨ min a.y1 b.y1 ≤ max a.y0 b.y0 →
      calculate_iou a b = 0) ∧
    (∀ a b : BBox, ValidBBox a → ValidBBox b → (calculate_iou a b = 1 ↔ a = b)) :=
  ⟨calculate_iou_comm,
   fun a b => ⟨calculate_iou_nonneg a b, calculate_iou_le_one a b⟩,
   calculate_iou_zero_of_zero_area,
   calculate_iou_zero_of_empty_clip,
   calculate_iou_eq_one_iff⟩

/-- Witness for `calculate_iou_spec` at concrete boxes. -/
theorem calculate_iou_spec_witness :
    calculate_iou ⟨0, 0, 2, 1⟩ ⟨0, 0, 2, 1⟩ = 1 ∧
    calculate_iou ⟨0, 0, 2, 1⟩ ⟨5, 5, 6, 6⟩ = 0 ∧
    calculate_iou ⟨0, 0, 1, 1⟩ ⟨3, 0, 3, 2⟩ = 0 :=
  ⟨(calculate_iou_spec.2.2.2.2 _ _ ⟨by norm_num, by norm_num⟩ ⟨by norm_num, by norm_num⟩).mpr
      rfl,
   calculate_iou_spec.2.2.2.1 _ _ (Or.inl (by norm_num [min_def, max_def])),
   calculate_iou_spec.2.2.1 _ _ (Or.inr (by norm_num [bboxArea]))⟩

theorem dedup_keep_loop_pairwise (τ : ℚ) (l : List MergedDetection) :
    ∀ keep : List MergedDetection,
      keep.Pairwise (fun a b => calculate_iou b.bbox a.bbox < τ) →
      (dedup_keep_loop τ keep l).Pairwise (fun a b => calculate_iou b.bbox a.bbox < τ) := by
  induction l with
  | nil => intro keep h; exact h
  | cons det rest ih =>
    intro keep h
    rw [dedup_keep_loop]
    by_cases hany :
        keep.any (fun kept_det => τ ≤ calculate_iou det.bbox kept_det.bbox) = true
    · rw [if_pos hany]
      exact ih keep h
    · rw [if_neg hany]
      apply ih
      rw [List.pairwise_append]
      refine ⟨h, List.pairwise_singleton _ _, ?_⟩
      intro a ha b hb
      rw [List.mem_singleton] at hb
      subst hb
      simp only [List.any_eq_true, not_exists, not_and] at hany
      have := hany a ha
      simp only [decide_eq_true_eq] at this
      exact lt_of_not_le this

/-- C7: after `deduplicate_overlaps` — greedy keeping in
confidence-descending order, dropping a detection that has IoU `≥ τ` with
an already-kept one — no two detections of the returned list have IoU
above `τ`, in either argument order. -/
theorem deduplicate_overlaps_pairwise (detections : List MergedDetection) (τ : ℚ) :
    (deduplicate_overlaps detections τ).Pairwise
      (fun a b => ¬ τ < calculate_iou a.bbox b.bbox ∧ ¬ τ < calculate_iou b.bbox a.bbox) := by
  rw [deduplicate_overlaps]
  by_cases hlen : detections.length ≤ 1
  · rw [if_pos hlen]
    rcases detections with _ | ⟨a, _ | ⟨b, l⟩⟩
    · exact List.Pairwise.nil
    · exact List.pairwise_singleton _ _
    · exact absurd hlen (by simp)
  · rw [if_neg hlen]
    have h := dedup_keep_loop_pairwise τ
      (pySorted (fun d e : MergedDetection => e.confidence ≤ d.confidence) detections)
      [] List.Pairwise.nil
    refine h.imp ?_
    intro a b hab
    constructor
    · rw [calculate_iou_comm]
      exact not_lt_of_gt hab
    · exact not_lt_of_gt hab

/-- C4: page- and document-level failures are recorded, not propagated:
an exception while processing a page yields a `PageResult` carrying
`str(e)` and no redactions; a failure to open a document yields a
`DocumentResult` carrying the error and no pages; every page outcome of an
opened document yields its own `PageResult` (later pages are processed
even when an earlier page failed); and the corpus processes every document
independently, one `DocumentResult` each. -/
theorem error_isolation_spec :
    (∀ (page_num : ℕ) (e : String),
      process_page_result page_num (.error e)
        = { page_num := page_num, redactions := [], error := some e }) ∧
    (∀ (page_num : ℕ) (rs : List Redaction),
      process_page_result page_num (.ok rs)
        = { page_num := page_num, redactions := rs, error := none }) ∧
    (∀ (d f : String) (e : String),
      process_document_result d f (.error e)
        = { doc_id := d, file_path := f, total_pages := 0, pages := [], error := some e }) ∧
    (∀ (d f : String) (outcomes : List (Except String (List Redaction)))
        (i : ℕ) (o : Except String (List Redaction)),
      outcomes.get? i = some o →
      (process_document_result d f (.ok outcomes)).pages.get? i
        = some (process_page_result (i + 1) o)) ∧
    (∀ docs, process_corpus_result docs
        = docs.map (fun d => process_document_result d.1 d.2.1 d.2.2)) := by
  refine ⟨fun _ _ => rfl, fun _ _ => rfl, fun _ _ _ => rfl, ?_, fun _ => rfl⟩
  intro d f outcomes i o hget
  simp only [process_document_result, List.get?_map]
  have henum : (outcomes.enum).get? i = some (i, o) := by
    rw [List.get?_enum, hget]
    rfl
  rw [henum]
  rfl

/-- Witness for `error_isolation_spec`: a document whose first page fails
still processes its second page. -/
theorem error_isolation_spec_witness :
    (process_document_result "doc" "doc.pdf"
        (.ok [.error "boom", .ok []])).pages.get? 1
      = some (process_page_result 2 (.ok [])) := by
  have h := error_isolation_spec.2.2.2.1 "doc" "doc.pdf"
    [.error "boom", .ok []] 1 (.ok []) rfl
  exact h

/-- C2 counterexample: for the spec's 100 pt wide bar `(100, 300, 200, 312)`
with no nearby spans, the code estimates `max(1, int(100 / 6.0)) = 16`
characters, while the claim's `max(1, round(100 / 6.0))` is 17. -/
theorem estimate_character_count_counterexample :
    (estimate_character_count ⟨100, 300, 200, 312⟩ []).1 = 16 ∧
    max 1 (round ((100:ℚ) / 6)) = 17 := by
  constructor
  · show max 1 (pyInt (((200:ℚ) - 100) / 6)) = 16
    rw [pyInt_eq_floor (by norm_num)]
    norm_num
  · rw [round_eq]
    norm_num

/-- C2 (amended): with nearby spans whose weighted average character width
`w = Σ(char_width·len) / Σ len` is positive, the estimate equals
`max(1, ⌊bbox_width / w⌋)` (Python `int` truncation, not rounding to
nearest), reporting the mean font size and `w`; with no nearby spans it
equals `max(1, ⌊bbox_width / 6⌋)` with font size and average width
absent. -/
theorem estimate_character_count_spec (bbox : BBox) (hw : 0 ≤ bbox.x1 - bbox.x0) :
    (∀ spans : List TextSpan, spans ≠ [] → 0 < weightedAvgCharWidth spans →
      estimate_character_count bbox spans
        = (max 1 ⌊(bbox.x1 - bbox.x0) / weightedAvgCharWidth spans⌋,
           some ((spans.map (fun s => s.font_size)).sum / ((spans.length : ℕ) : ℚ)),
           some (weightedAvgCharWidth spans))) ∧
    estimate_character_count bbox [] = (max 1 ⌊(bbox.x1 - bbox.x0) / 6⌋, none, none) := by
  constructor
  · intro spans hne hpos
    have htc : ¬ ((spans.map (fun s => s.text.length)).sum = 0) := by
      intro h0
      rw [weightedAvgCharWidth, h0] at hpos
      norm_num at hpos
    have hdivnn : 0 ≤ (bbox.x1 - bbox.x0) / weightedAvgCharWidth spans :=
      div_nonneg hw (le_of_lt hpos)
    simp only [estimate_character_count, if_neg hne, if_neg htc]
    rw [show ((spans.map (fun s => s.char_width * (s.text.length : ℚ))).sum /
          (((spans.map (fun s => s.text.length)).sum : ℕ) : ℚ))
        = weightedAvgCharWidth spans from rfl]
    rw [pyInt_eq_floor hdivnn, List.length_map]
  · simp only [estimate_character_count, eq_self_iff_true, if_true]
    rw [pyInt_eq_floor (div_nonneg hw (by norm_num))]

/-- Witness for `estimate_character_count_spec` at a concrete bbox and
span list. -/
theorem estimate_character_count_spec_witness :
    estimate_character_count ⟨0, 0, 30, 10⟩ [⟨"abcde", ⟨0, 0, 25, 10⟩, 10, "F", 5⟩]
      = (6, some 10, some 5) ∧
    estimate_character_count ⟨0, 0, 30, 10⟩ [] = (5, none, none) := by
  have h := estimate_character_count_spec ⟨0, 0, 30, 10⟩ (by norm_num)
  have hwavg : weightedAvgCharWidth [⟨"abcde", ⟨0, 0, 25, 10⟩, 10, "F", 5⟩] = 5 := by
    rw [weightedAvgCharWidth]
    norm_num [show "abcde".length = 5 from rfl]
  constructor
  · rw [h.1 _ (by simp) (by rw [hwavg]; norm_num), hwavg]
    norm_num
  · rw [h.2]
    norm_num

theorem floor_sub_floor_round_close (a b s : ℚ) :
    |(⌊b * s⌋ - ⌊a * s⌋) - round ((b - a) * s)| ≤ 1 := by
  have h1 : ((⌊b * s⌋ : ℤ) : ℚ) ≤ b * s := Int.floor_le _
  have h2 : b * s < (⌊b * s⌋ : ℚ) + 1 := Int.lt_floor_add_one _
  have h3 : ((⌊a * s⌋ : ℤ) : ℚ) ≤ a * s := Int.floor_le _
  have h4 : a * s < (⌊a * s⌋ : ℚ) + 1 := Int.lt_floor_add_one _
  have h5 : |(b - a) * s - (round ((b - a) * s) : ℚ)| ≤ 1 / 2 := abs_sub_round _
  have hexp : (b - a) * s = b * s - a * s := by ring
  rw [hexp] at h5 ⊢
  rw [abs_le] at h5
  have hub : ((⌊b * s⌋ - ⌊a * s⌋ - round (b * s - a * s) : ℤ) : ℚ) < 2 := by
    push_cast
    linarith [h5.1, h5.2]
  have hlb : (-2 : ℚ) < ((⌊b * s⌋ - ⌊a * s⌋ - round (b * s - a * s) : ℤ) : ℚ) := by
    push_cast
    linarith [h5.1, h5.2]
  have hub' : (⌊b * s⌋ - ⌊a * s⌋ - round (b * s - a * s) : ℤ) < 2 := by exact_mod_cast hub
  have hlb' : (-2 : ℤ) < ⌊b * s⌋ - ⌊a * s⌋ - round (b * s - a * s) := by exact_mod_cast hlb
  rw [abs_le]
  omega

/-- C6: every `Redaction` the `process_page` loop builds from a detection
bbox with `0 ≤ x0 < x1` stores a `width_pixels` (difference of the
truncated pixel edge coordinates) within 1 of
`round((bbox_x1_points − bbox_x0_points) · dpi / 72)`. -/
theorem width_pixels_round_spec (merged : List MergedDetection) (page_height : ℚ)
    (dpi : ℤ) (doc_id : String) (page_num : ℕ) (r : Redaction)
    (hr : r ∈ process_page_loop merged page_height dpi doc_id page_num)
    (hdpi : 0 < dpi) (hx0 : 0 ≤ r.bbox_points.x0)
    (hx01 : r.bbox_points.x0 < r.bbox_points.x1) :
    |r.width_pixels - round ((r.bbox_points.x1 - r.bbox_points.x0) * dpi / 72)| ≤ 1 := by
  rw [process_page_loop] at hr
  obtain ⟨⟨i, d⟩, _, heq⟩ := List.mem_map.mp hr
  subst heq
  simp only [points_to_pixels] at hx0 hx01 ⊢
  have hs : (0:ℚ) < (dpi : ℚ) / 72 := by positivity
  have hx1nn : 0 ≤ d.bbox.x1 := le_of_lt (lt_of_le_of_lt hx0 hx01)
  rw [pyInt_eq_floor (mul_nonneg hx1nn (le_of_lt hs)),
    pyInt_eq_floor (mul_nonneg hx0 (le_of_lt hs))]
  have hre : (d.bbox.x1 - d.bbox.x0) * (dpi : ℚ) / 72
      = (d.bbox.x1 - d.bbox.x0) * ((dpi : ℚ) / 72) := by ring
  rw [hre]
  exact floor_sub_floor_round_close d.bbox.x0 d.bbox.x1 ((dpi : ℚ) / 72)

/-- Witness for `width_pixels_round_spec`: a 100 pt wide bar at 150 DPI
gets `width_pixels = 209`, one off `round(100 · 150/72) = 208`. -/
theorem width_pixels_round_spec_witness :
    |(209 : ℤ) - round (((110 : ℚ) - 10) * ((150 : ℤ) : ℚ) / 72)| ≤ 1 := by
  have hloop : process_page_loop [⟨⟨10, 20, 110, 32⟩, .pymupdf, 1, none, none⟩]
      792 150 "doc" 1
      = [{ doc_id := "doc", page_num := 1, redaction_index := 0
           bbox_points := ⟨10, 20, 110, 32⟩, width_points := 100, height_points := 12
           bbox_pixels := ⟨20, 41, 229, 66⟩, width_pixels := 209, height_pixels := 25
           detection_method := .pymupdf, confidence := 1 }] := by
    simp only [process_page_loop, List.enum, List.enumFrom, List.map, points_to_pixels]
    norm_num [pyInt, ratFloor_eq_floor, Redaction.mk.injEq, PixelBBox.mk.injEq,
      BBox.mk.injEq]
  have h := width_pixels_round_spec [⟨⟨10, 20, 110, 32⟩, .pymupdf, 1, none, none⟩]
    792 150 "doc" 1
    { doc_id := "doc", page_num := 1, redaction_index := 0
      bbox_points := ⟨10, 20, 110, 32⟩, width_points := 100, height_points := 12
      bbox_pixels := ⟨20, 41, 229, 66⟩, width_pixels := 209, height_pixels := 25
      detection_method := .pymupdf, confidence := 1 }
    (by rw [hloop]; exact List.mem_singleton.mpr rfl)
    (by norm_num) (by norm_num) (by norm_num)
  simpa using h

/-- C1 (amended): within a page the redactions keep the merged list's
emission order (confidence-descending after NMS): redaction `k` is built
from the `k`-th merged detection, so `redaction_index` is dense from 0 in
that order; no re-indexing by the `(y0, x0)` reading order takes place. -/
theorem redaction_index_emission_order (merged : List MergedDetection) (page_height : ℚ)
    (dpi : ℤ) (doc_id : String) (page_num : ℕ) :
    (process_page_loop merged page_height dpi doc_id page_num).map
        (fun r => r.redaction_index) = List.range merged.length ∧
    (process_page_loop merged page_height dpi doc_id page_num).map
        (fun r => r.bbox_points) = merged.map (fun d => d.bbox) := by
  constructor
  · rw [process_page_loop, List.map_map]
    exact Eq.trans (List.map_congr_left (fun idet _ => rfl)) (List.enum_map_fst merged)
  · rw [process_page_loop, List.map_map]
    have h2 : (merged.enum).map (fun idet : ℕ × MergedDetection => idet.2.bbox)
        = merged.map (fun d => d.bbox) := by
      rw [show (fun idet : ℕ × MergedDetection => idet.2.bbox)
          = (fun d : MergedDetection => d.bbox) ∘ Prod.snd from rfl, ← List.map_map,
        List.enum_map_snd]
    exact Eq.trans (List.map_congr_left (fun idet _ => rfl)) h2

theorem twoBarPageRedactions_eval :
    twoBarPageRedactions =
      [{ doc_id := "doc", page_num := 1, redaction_index := 0
         bbox_points := ⟨0, 100, 50, 110⟩, width_points := 50, height_points := 10
         bbox_pixels := ⟨0, 208, 104, 229⟩, width_pixels := 104, height_pixels := 21
         detection_method := .pymupdf, confidence := 9/10 },
       { doc_id := "doc", page_num := 1, redaction_index := 1
         bbox_points := ⟨0, 0, 50, 10⟩, width_points := 50, height_points := 10
         bbox_pixels := ⟨0, 0, 104, 20⟩, width_pixels := 104, height_pixels := 20
         detection_method := .pymupdf, confidence := 8/10 }] := by
  have hmerge : merge_detections
      [⟨⟨0, 0, 50, 10⟩, .pymupdf, 8/10, none⟩, ⟨⟨0, 100, 50, 110⟩, .pymupdf, 9/10, none⟩]
      [] (7/10)
      = [⟨⟨0, 100, 50, 110⟩, .pymupdf, 9/10, some ⟨⟨0, 100, 50, 110⟩, .pymupdf, 9/10, none⟩,
          none⟩,
         ⟨⟨0, 0, 50, 10⟩, .pymupdf, 8/10, some ⟨⟨0, 0, 50, 10⟩, .pymupdf, 8/10, none⟩,
          none⟩] := by
    norm_num [merge_detections, merge_detections_step, find_best_match,
      find_best_match_step, deduplicate_overlaps, dedup_keep_loop, pySorted,
      List.insertionSort, List.orderedInsert, calculate_iou, List.enum, List.enumFrom,
      min_def, max_def]
  have hloop : process_page_loop
      [⟨⟨0, 100, 50, 110⟩, .pymupdf, 9/10, some ⟨⟨0, 100, 50, 110⟩, .pymupdf, 9/10, none⟩,
        none⟩,
       ⟨⟨0, 0, 50, 10⟩, .pymupdf, 8/10, some ⟨⟨0, 0, 50, 10⟩, .pymupdf, 8/10, none⟩, none⟩]
      842 150 "doc" 1
      = [{ doc_id := "doc", page_num := 1, redaction_index := 0
           bbox_points := ⟨0, 100, 50, 110⟩, width_points := 50, height_points := 10
           bbox_pixels := ⟨0, 208, 104, 229⟩, width_pixels := 104, height_pixels := 21
           detection_method := .pymupdf, confidence := 9/10 },
         { doc_id := "doc", page_num := 1, redaction_index := 1
           bbox_points := ⟨0, 0, 50, 10⟩, width_points := 50, height_points := 10
           bbox_pixels := ⟨0, 0, 104, 20⟩, width_pixels := 104, height_pixels := 20
           detection_method := .pymupdf, confidence := 8/10 }] := by
    simp only [process_page_loop, List.enum, List.enumFrom, List.map, points_to_pixels]
    norm_num [pyInt, ratFloor_eq_floor, Redaction.mk.injEq, PixelBBox.mk.injEq,
      BBox.mk.injEq]
  have hml : merge_multiline_redactions
      [{ doc_id := "doc", page_num := 1, redaction_index := 0
         bbox_points := ⟨0, 100, 50, 110⟩, width_points := 50, height_points := 10
         bbox_pixels := ⟨0, 208, 104, 229⟩, width_pixels := 104, height_pixels := 21
         detection_method := .pymupdf, confidence := 9/10 },
       { doc_id := "doc", page_num := 1, redaction_index := 1
         bbox_points := ⟨0, 0, 50, 10⟩, width_points := 50, height_points := 10
         bbox_pixels := ⟨0, 0, 104, 20⟩, width_pixels := 104, height_pixels := 20
         detection_method := .pymupdf, confidence := 8/10 }]
      595 50 5
      = [{ doc_id := "doc", page_num := 1, redaction_index := 0
           bbox_points := ⟨0, 100, 50, 110⟩, width_points := 50, height_points := 10
           bbox_pixels := ⟨0, 208, 104, 229⟩, width_pixels := 104, height_pixels := 21
           detection_method := .pymupdf, confidence := 9/10 },
         { doc_id := "doc", page_num := 1, redaction_index := 1
           bbox_points := ⟨0, 0, 50, 10⟩, width_points := 50, height_points := 10
           bbox_pixels := ⟨0, 0, 104, 20⟩, width_pixels := 104, height_pixels := 20
           detection_method := .pymupdf, confidence := 8/10 }] := by
    simp only [merge_multiline_redactions]
    have hgroups : find_multiline_groups
        [{ doc_id := "doc", page_num := 1, redaction_index := 0
           bbox_points := ⟨0, 100, 50, 110⟩, width_points := 50, height_points := 10
           bbox_pixels := ⟨0, 208, 104, 229⟩, width_pixels := 104, height_pixels := 21
           detection_method := .pymupdf, confidence := 9/10 },
         { doc_id := "doc", page_num := 1, redaction_index := 1
           bbox_points := ⟨0, 0, 50, 10⟩, width_points := 50, height_points := 10
           bbox_pixels := ⟨0, 0, 104, 20⟩, width_pixels := 104, height_pixels := 20
           detection_method := .pymupdf, confidence := 8/10 }]
        595 50 5 = [] := by
      simp only [find_multiline_groups]
      rw [if_neg (by norm_num)]
      norm_num [pySorted, List.insertionSort, List.orderedInsert, estimate_line_height,
        find_groups_loop, find_continuations, is_at_right_margin,
        show List.range 2 = [0, 1] from by decide]
    rw [hgroups]
    norm_num [redaction_to_group]
  simp only [twoBarPageRedactions, process_page_core]
  rw [hmerge, hloop]
  rw [if_neg (by simp)]
  exact hml

/-- C1 counterexample: on `twoBarPageRedactions` (two non-overlapping bars,
the lower one with the higher confidence) the page's redactions carry
`redaction_index` 0 for the lower bar (`y0 = 100`) and 1 for the upper bar
(`y0 = 0`): sorting by `(y0, x0)` does not list them in increasing
`redaction_index`, so no reading-order re-indexing happened. -/
theorem redaction_index_reading_order_counterexample :
    twoBarPageRedactions.map (fun r => (r.redaction_index, r.bbox_points.y0))
        = [(0, (100:ℚ)), (1, 0)] ∧
    ¬ (∀ r ∈ twoBarPageRedactions, ∀ s ∈ twoBarPageRedactions,
        r.bbox_points.y0 < s.bbox_points.y0 → r.redaction_index < s.redaction_index) := by
  constructor
  · rw [twoBarPageRedactions_eval]
    norm_num
  · intro hall
    have h := hall
      { doc_id := "doc", page_num := 1, redaction_index := 1
        bbox_points := ⟨0, 0, 50, 10⟩, width_points := 50, height_points := 10
        bbox_pixels := ⟨0, 0, 104, 20⟩, width_pixels := 104, height_pixels := 20
        detection_method := .pymupdf, confidence := 8/10 }
      (by rw [twoBarPageRedactions_eval]; simp)
      { doc_id := "doc", page_num := 1, redaction_index := 0
        bbox_points := ⟨0, 100, 50, 110⟩, width_points := 50, height_points := 10
        bbox_pixels := ⟨0, 208, 104, 229⟩, width_pixels := 104, height_pixels := 21
        detection_method := .pymupdf, confidence := 9/10 }
      (by rw [twoBarPageRedactions_eval]; simp)
      (by norm_num)
    norm_num at h

/-- C3: the code's behaviour on the claim's two-bar scenario (top-left
origin, y growing downward, as the bboxes the extractor stores really
are): the upper bar `(50, 100, 545, 112)` ends at the right margin of a
595 pt page, the lower bar `(50, 114, 300, 126)` starts at the left margin
on the following line (gap 2 pt, tolerance 5, `2·line_height = 31.2`).
`find_multiline_groups` — which sorts by `(-y1, x0)`, i.e. bottom-up under
the real coordinate convention, and demands that the BOTTOM bar reach the
right margin — finds no group, and both bars remain unmarked. -/
theorem multiline_grouping_failing_input :
    find_multiline_groups
        [{ redaction_index := 0, bbox_points := ⟨50, 100, 545, 112⟩, height_points := 12 },
         { redaction_index := 1, bbox_points := ⟨50, 114, 300, 126⟩, height_points := 12 }]
        595 50 5 = [] ∧
    (merge_multiline_redactions
        [{ redaction_index := 0, bbox_points := ⟨50, 100, 545, 112⟩, height_points := 12 },
         { redaction_index := 1, bbox_points := ⟨50, 114, 300, 126⟩, height_points := 12 }]
        595 50 5).map
        (fun r => (r.is_multiline, r.multiline_group_id, r.line_index_in_group))
      = [(false, none, none), (false, none, none)] := by
  have hgroups : find_multiline_groups
      [{ redaction_index := 0, bbox_points := ⟨50, 100, 545, 112⟩, height_points := 12 },
       { redaction_index := 1, bbox_points := ⟨50, 114, 300, 126⟩, height_points := 12 }]
      595 50 5 = [] := by
    simp only [find_multiline_groups]
    rw [if_neg (by norm_num)]
    norm_num [pySorted, List.insertionSort, List.orderedInsert, estimate_line_height,
      find_groups_loop, find_continuations, is_at_right_margin, is_at_left_margin,
      is_on_next_line, show List.range 2 = [0, 1] from by decide]
  refine ⟨hgroups, ?_⟩
  simp only [merge_multiline_redactions]
  rw [hgroups]
  norm_num [redaction_to_group]

/-- C9 counterexample: at `font_size_px = 20`, the bottom (descender) band
is `max(3, int(20 · 0.20)) = 4` pixels tall, not the claimed
`max(3, round(20 · 0.25)) = 5`. -/
theorem leakage_band_counterexample :
    (analyze_leakage_letterforms_bands 1000 800 100 100 300 120 20 300).descender_band_h
        = 4 ∧
    max 3 (round ((20:ℚ) * (25/100))) = 5 := by
  constructor
  · show max 3 (pyInt ((20:ℚ) * (20/100))) = 4
    rw [pyInt_eq_floor (by norm_num)]
    norm_num
  · rw [round_eq]
    norm_num

/-- C9 (amended): the leakage letterform analysis uses a top band
`max(3, ⌊fs·0.25⌋)` px tall, a bottom band `max(3, ⌊fs·0.20⌋)` px tall
(0.20, not 0.25, and Python `int` truncation, not rounding), and left and
right bands `max(3, ⌊fs·0.30⌋)` px wide; away from the image edges each
band's extent (beyond the anti-alias inset) has exactly that thickness. -/
theorem leakage_band_dimensions_spec (h w x0 y0 x1 y1 : ℤ) (fs : ℚ) (dpi : ℤ)
    (hfs : 0 ≤ fs) (hdpi : 0 ≤ dpi) :
    ((analyze_leakage_letterforms_bands h w x0 y0 x1 y1 fs dpi).ascender_band_h
        = max 3 ⌊fs * (25/100)⌋ ∧
     (analyze_leakage_letterforms_bands h w x0 y0 x1 y1 fs dpi).descender_band_h
        = max 3 ⌊fs * (20/100)⌋ ∧
     (analyze_leakage_letterforms_bands h w x0 y0 x1 y1 fs dpi).edge_band_w
        = max 3 ⌊fs * (30/100)⌋ ∧
     (analyze_leakage_letterforms_bands h w x0 y0 x1 y1 fs dpi).aa_inset
        = max 2 ⌊(dpi : ℚ) / 100⌋) ∧
    ((analyze_leakage_letterforms_bands h w x0 y0 x1 y1 fs dpi).ascender_band_h
        + (analyze_leakage_letterforms_bands h w x0 y0 x1 y1 fs dpi).aa_inset ≤ y0 →
      (analyze_leakage_letterforms_bands h w x0 y0 x1 y1 fs dpi).top_rows.2
          - (analyze_leakage_letterforms_bands h w x0 y0 x1 y1 fs dpi).top_rows.1
        = (analyze_leakage_letterforms_bands h w x0 y0 x1 y1 fs dpi).ascender_band_h) ∧
    (y1 + (analyze_leakage_letterforms_bands h w x0 y0 x1 y1 fs dpi).descender_band_h
        + (analyze_leakage_letterforms_bands h w x0 y0 x1 y1 fs dpi).aa_inset ≤ h →
      (analyze_leakage_letterforms_bands h w x0 y0 x1 y1 fs dpi).bottom_rows.2
          - (analyze_leakage_letterforms_bands h w x0 y0 x1 y1 fs dpi).bottom_rows.1
        = (analyze_leakage_letterforms_bands h w x0 y0 x1 y1 fs dpi).descender_band_h) ∧
    ((analyze_leakage_letterforms_bands h w x0 y0 x1 y1 fs dpi).edge_band_w
        + (analyze_leakage_letterforms_bands h w x0 y0 x1 y1 fs dpi).aa_inset ≤ x0 →
      (analyze_leakage_letterforms_bands h w x0 y0 x1 y1 fs dpi).left_cols.2
          - (analyze_leakage_letterforms_bands h w x0 y0 x1 y1 fs dpi).left_cols.1
        = (analyze_leakage_letterforms_bands h w x0 y0 x1 y1 fs dpi).edge_band_w) ∧
    (x1 + (analyze_leakage_letterforms_bands h w x0 y0 x1 y1 fs dpi).edge_band_w
        + (analyze_leakage_letterforms_bands h w x0 y0 x1 y1 fs dpi).aa_inset ≤ w →
      (analyze_leakage_letterforms_bands h w x0 y0 x1 y1 fs dpi).right_cols.2
          - (analyze_leakage_letterforms_bands h w x0 y0 x1 y1 fs dpi).right_cols.1
        = (analyze_leakage_letterforms_bands h w x0 y0 x1 y1 fs dpi).edge_band_w) := by
  have hb : analyze_leakage_letterforms_bands h w x0 y0 x1 y1 fs dpi
      = { ascender_band_h := max 3 ⌊fs * (25/100)⌋
          descender_band_h := max 3 ⌊fs * (20/100)⌋
          edge_band_w := max 3 ⌊fs * (30/100)⌋
          aa_inset := max 2 ⌊(dpi : ℚ) / 100⌋
          top_rows := (max 0 (y0 - max 3 ⌊fs * (25/100)⌋ - max 2 ⌊(dpi : ℚ) / 100⌋),
                       max 0 (y0 - max 2 ⌊(dpi : ℚ) / 100⌋))
          bottom_rows := (min h (y1 + max 2 ⌊(dpi : ℚ) / 100⌋),
                          min h (y1 + max 3 ⌊fs * (20/100)⌋ + max 2 ⌊(dpi : ℚ) / 100⌋))
          left_cols := (max 0 (x0 - max 3 ⌊fs * (30/100)⌋ - max 2 ⌊(dpi : ℚ) / 100⌋),
                        max 0 (x0 - max 2 ⌊(dpi : ℚ) / 100⌋))
          right_cols := (min w (x1 + max 2 ⌊(dpi : ℚ) / 100⌋),
                         min w (x1 + max 3 ⌊fs * (30/100)⌋ + max 2 ⌊(dpi : ℚ) / 100⌋)) } := by
    simp only [analyze_leakage_letterforms_bands]
    rw [pyInt_eq_floor (mul_nonneg hfs (by norm_num)),
      pyInt_eq_floor (mul_nonneg hfs (by norm_num)),
      pyInt_eq_floor (mul_nonneg hfs (by norm_num)),
      pyInt_eq_floor (div_nonneg (by exact_mod_cast hdpi) (by norm_num))]
  rw [hb]
  have hA : (3:ℤ) ≤ max 3 ⌊fs * (25/100)⌋ := le_max_left _ _
  have hD : (3:ℤ) ≤ max 3 ⌊fs * (20/100)⌋ := le_max_left _ _
  have hE : (3:ℤ) ≤ max 3 ⌊fs * (30/100)⌋ := le_max_left _ _
  have hI : (2:ℤ) ≤ max 2 ⌊(dpi : ℚ) / 100⌋ := le_max_left _ _
  refine ⟨⟨rfl, rfl, rfl, rfl⟩, ?_, ?_, ?_, ?_⟩
  · intro hc
    simp only at hc ⊢
    rw [max_eq_right (by omega : (0:ℤ) ≤ y0 - max 3 ⌊fs * (25/100)⌋ - max 2 ⌊(dpi:ℚ)/100⌋),
      max_eq_right (by omega : (0:ℤ) ≤ y0 - max 2 ⌊(dpi:ℚ)/100⌋)]
    ring
  · intro hc
    simp only at hc ⊢
    rw [min_eq_right (by omega : y1 + max 2 ⌊(dpi:ℚ)/100⌋ ≤ h),
      min_eq_right (by omega : y1 + max 3 ⌊fs * (20/100)⌋ + max 2 ⌊(dpi:ℚ)/100⌋ ≤ h)]
    ring
  · intro hc
    simp only at hc ⊢
    rw [max_eq_right (by omega : (0:ℤ) ≤ x0 - max 3 ⌊fs * (30/100)⌋ - max 2 ⌊(dpi:ℚ)/100⌋),
      max_eq_right (by omega : (0:ℤ) ≤ x0 - max 2 ⌊(dpi:ℚ)/100⌋)]
    ring
  · intro hc
    simp only at hc ⊢
    rw [min_eq_right (by omega : x1 + max 2 ⌊(dpi:ℚ)/100⌋ ≤ w),
      min_eq_right (by omega : x1 + max 3 ⌊fs * (30/100)⌋ + max 2 ⌊(dpi:ℚ)/100⌋ ≤ w)]
    ring

/-- Witness for `leakage_band_dimensions_spec` at concrete values. -/
theorem leakage_band_dimensions_spec_witness :
    (analyze_leakage_letterforms_bands 1000 800 100 100 300 120 20 300).ascender_band_h
        = 5 ∧
    (analyze_leakage_letterforms_bands 1000 800 100 100 300 120 20 300).descender_band_h
        = 4 ∧
    (analyze_leakage_letterforms_bands 1000 800 100 100 300 120 20 300).edge_band_w = 6 ∧
    (analyze_leakage_letterforms_bands 1000 800 100 100 300 120 20 300).top_rows.2
        - (analyze_leakage_letterforms_bands 1000 800 100 100 300 120 20 300).top_rows.1
        = 5 := by
  have h := leakage_band_dimensions_spec 1000 800 100 100 300 120 20 300
    (by norm_num) (by norm_num)
  have hasc :
      (analyze_leakage_letterforms_bands 1000 800 100 100 300 120 20 300).ascender_band_h
        = 5 := by
    rw [h.1.1]
    norm_num
  have hdesc :
      (analyze_leakage_letterforms_bands 1000 800 100 100 300 120 20 300).descender_band_h
        = 4 := by
    rw [h.1.2.1]
    norm_num
  have hedge :
      (analyze_leakage_letterforms_bands 1000 800 100 100 300 120 20 300).edge_band_w
        = 6 := by
    rw [h.1.2.2.1]
    norm_num
  have haa :
      (analyze_leakage_letterforms_bands 1000 800 100 100 300 120 20 300).aa_inset
        = 3 := by
    rw [h.1.2.2.2]
    norm_num
  refine ⟨hasc, hdesc, hedge, ?_⟩
  rw [h.2.1 (by rw [hasc, haa]; norm_num), hasc]

/-- C5 counterexample: the returned `width_fit` is Python
`round(fit, 3)`, not the exact `max(0, 1 − |ratio − 1| / tol)`: for a
candidate of rendered width 2 against a bbox width 2.1 (no precise gap,
tolerance 0.15) the exact fit is `43/63` but the stored value is `0.683`. -/
theorem filter_by_width_counterexample :
    (filter_by_width ["ab"] (21/10) (fun _ => some 1) 1 1 (15/100) 0 0 [] none).map
        (fun res => res.width_fit) = [(683:ℚ)/1000] ∧
    (683:ℚ)/1000 ≠ max 0 (1 - |(2:ℚ) / (21/10) - 1| / (15/100)) := by
  have habs : |(2:ℚ) / (21/10) - 1| = 1/21 := by
    rw [show (2:ℚ) / (21/10) - 1 = -(1/21) by norm_num, abs_neg, abs_of_nonneg (by norm_num)]
  constructor
  · have htl : ("" ++ "ab" ++ "").toList = ['a', 'b'] := rfl
    simp only [filter_by_width, List.map, compute_candidate_width_pt, htl,
      List.foldl, candidate_char_width]
    norm_num [pyRoundTo, halfEven, ratFloor_eq_floor, Int.fract,
      show |(1:ℚ)/21| = 1/21 from abs_of_nonneg (by norm_num)]
  · rw [habs]
    rw [max_eq_right (by norm_num)]
    norm_num

/-- C5 (amended): for every candidate list, `_filter_by_width` (called with
the default `tolerance = 0.15`) pads each candidate with a leading/trailing
space exactly when the gap report's `needs_space` flag for that side is
set (the flag is set exactly when that side's neighbouring character is
non-whitespace), compares the rendered width against `t = gap_pt` when a
precise gap is known else the bbox width, uses tolerance 0.03 with a
precise gap else 0.15, and, provided `t > 0`, stores as `width_fit` the
value `max(0, 1 − |ratio − 1| / tol)` rounded to 3 decimals, where
`ratio = rendered_width / t`. -/
theorem filter_by_width_spec (candidates : List String) (redaction_width_pt : ℚ)
    (glyph_advance : Char → Option ℚ) (font_size_pt scale_x : ℚ)
    (letter_spacing_norm word_spacing_norm : ℚ) (profile : List (Char × ℚ))
    (gap_info : Option GapInfo)
    (ht : 0 < (match gap_info with | some gi => gi.gap_pt | none => redaction_width_pt)) :
    ((∀ lbr fax : ℚ, ∀ cb ca : String, ∀ afs : ℚ,
        (mkGapInfo lbr fax cb ca afs).needs_space_before = (cb.trim ≠ "" : Bool) ∧
        (mkGapInfo lbr fax cb ca afs).needs_space_after = (ca.trim ≠ "" : Bool)) ∧
     (filter_by_width candidates redaction_width_pt glyph_advance font_size_pt scale_x
        (15/100) letter_spacing_norm word_spacing_norm profile gap_info).map
        (fun res => res.width_fit)
      = candidates.map (fun s =>
          pyRoundTo 3 (max 0 (1 -
            |(compute_candidate_width_pt
                (((match gap_info with
                    | some gi => if gi.needs_space_before then " " else ""
                    | none => "") ++ s ++
                  (match gap_info with
                    | some gi => if gi.needs_space_after then " " else ""
                    | none => "")).toList)
                glyph_advance scale_x letter_spacing_norm word_spacing_norm profile
                * font_size_pt) /
              (match gap_info with | some gi => gi.gap_pt | none => redaction_width_pt)
              - 1| /
            (match gap_info with | some _ => (3/100) | none => (15/100)))))) := by
  refine ⟨fun _ _ _ _ _ => ⟨rfl, rfl⟩, ?_⟩
  simp only [filter_by_width, List.map_map]
  apply List.map_congr_left
  intro s _
  have htol : (0:ℚ) < (match gap_info with | some _ => (3/100) | none => (15/100)) := by
    cases gap_info <;> norm_num
  cases gap_info with
  | none =>
    simp only [Function.comp_apply, Option.isSome_none, Bool.false_eq_true, if_false]
      at ht htol ⊢
    rw [if_neg (not_le.mpr ht)]
    by_cases hr : |(compute_candidate_width_pt (("" ++ s ++ "").toList)
        glyph_advance scale_x letter_spacing_norm word_spacing_norm profile
        * font_size_pt) / redaction_width_pt - 1| ≤ 15/100
    · rw [if_pos hr, max_eq_right (by
        rw [sub_nonneg, div_le_one (by norm_num : (0:ℚ) < 15/100)]
        exact hr)]
    · rw [if_neg hr, max_eq_left (by
        push_neg at hr
        rw [sub_nonpos, le_div_iff (by norm_num : (0:ℚ) < 15/100)]
        linarith)]
  | some gi =>
    simp only [Function.comp_apply, Option.isSome_some, if_true] at ht htol ⊢
    rw [if_neg (not_le.mpr ht)]
    by_cases hr : |(compute_candidate_width_pt
        (((if gi.needs_space_before then " " else "") ++ s ++
          (if gi.needs_space_after then " " else "")).toList)
        glyph_advance scale_x letter_spacing_norm word_spacing_norm profile
        * font_size_pt) / gi.gap_pt - 1| ≤ 3/100
    · rw [if_pos hr, max_eq_right (by
        rw [sub_nonneg, div_le_one (by norm_num : (0:ℚ) < 3/100)]
        exact hr)]
    · rw [if_neg hr, max_eq_left (by
        push_neg at hr
        rw [sub_nonpos, le_div_iff (by norm_num : (0:ℚ) < 3/100)]
        linarith)]

/-- Witness for `filter_by_width_spec` with a precise gap of 5.1 pt and a
unit-advance font. -/
theorem filter_by_width_spec_witness :
    (filter_by_width ["abc"] 99 (fun _ => some 1) 1 1 (15/100) 0 0 []
        (some (mkGapInfo 100 (1051/10) "d" "w" 12))).map (fun res => res.width_fit)
      = ["abc"].map (fun s =>
          pyRoundTo 3 (max 0 (1 -
            |(compute_candidate_width_pt
                (((if (mkGapInfo 100 (1051/10) "d" "w" 12).needs_space_before
                    then " " else "") ++ s ++
                  (if (mkGapInfo 100 (1051/10) "d" "w" 12).needs_space_after
                    then " " else "")).toList)
                (fun _ => some 1) 1 0 0 []
                * 1) /
              (mkGapInfo 100 (1051/10) "d" "w" 12).gap_pt
              - 1| /
            (3/100)))) :=
  (filter_by_width_spec ["abc"] 99 (fun _ => some 1) 1 1 0 0 []
    (some (mkGapInfo 100 (1051/10) "d" "w" 12))
    (by norm_num [mkGapInfo])).2

theorem digitChar_digit {d : ℕ} (h : d < 10) : isDecimalDigit (digitChar d) := by
  interval_cases d <;> decide

theorem digitChar_toNat {d : ℕ} (h : d < 10) : (digitChar d).toNat - 48 = d := by
  interval_cases d <;> decide

theorem natDecimalAux_spec : ∀ fuel n, n < fuel →
    natDecimalAux fuel n ≠ [] ∧ (∀ c ∈ natDecimalAux fuel n, isDecimalDigit c) ∧
    decimalValue (natDecimalAux fuel n) = n := by
  intro fuel
  induction fuel with
  | zero => intro n h; exact absurd h (Nat.not_lt_zero n)
  | succ fuel ih =>
    intro n hn
    rw [natDecimalAux]
    by_cases h10 : n < 10
    · rw [if_pos h10]
      refine ⟨by simp, ?_, ?_⟩
      · intro c hc
        rw [List.mem_singleton] at hc
        subst hc
        exact digitChar_digit h10
      · show decimalValue [digitChar n] = n
        have := digitChar_toNat h10
        simp only [decimalValue, List.foldl]
        omega
    · rw [if_neg h10]
      have hdiv : n / 10 < fuel :=
        lt_of_lt_of_le (Nat.div_lt_self (by omega) (by norm_num)) (by omega)
    -- the recursive digits of `n / 10` followed by the last digit `n % 10`
      obtain ⟨hne, hdig, hval⟩ := ih (n / 10) hdiv
      refine ⟨by simp, ?_, ?_⟩
      · intro c hc
        rw [List.mem_append] at hc
        rcases hc with hc | hc
        · exact hdig c hc
        · rw [List.mem_singleton] at hc
          subst hc
          exact digitChar_digit (Nat.mod_lt n (by norm_num))
      · have hmod := digitChar_toNat (Nat.mod_lt n (show 0 < 10 by norm_num))
        simp only [decimalValue, List.foldl_append, List.foldl] at hval ⊢
        omega

theorem natDecimal_ne_nil (n : ℕ) : natDecimal n ≠ [] :=
  (natDecimalAux_spec (n + 1) n (by omega)).1

theorem natDecimal_digits (n : ℕ) : ∀ c ∈ natDecimal n, isDecimalDigit c :=
  (natDecimalAux_spec (n + 1) n (by omega)).2.1

theorem decimalValue_natDecimal (n : ℕ) : decimalValue (natDecimal n) = n :=
  (natDecimalAux_spec (n + 1) n (by omega)).2.2

theorem natDecimal_injective : Function.Injective natDecimal := by
  intro m n h
  have h1 := decimalValue_natDecimal m
  rw [h, decimalValue_natDecimal] at h1
  exact h1.symm

theorem digit_run_append_inj :
    ∀ (d1 : List Char) {d2 : List Char} {c1 c2 : Char} {r1 r2 : List Char},
      (∀ c ∈ d1, isDecimalDigit c) → (∀ c ∈ d2, isDecimalDigit c) →
      ¬ isDecimalDigit c1 → ¬ isDecimalDigit c2 →
      d1 ++ c1 :: r1 = d2 ++ c2 :: r2 →
      d1 = d2 ∧ c1 = c2 ∧ r1 = r2 := by
  intro d1
  induction d1 with
  | nil =>
    intro d2 c1 c2 r1 r2 h1 h2 hc1 hc2 heq
    cases d2 with
    | nil =>
      rw [List.nil_append, List.nil_append] at heq
      injection heq with h h'
      exact ⟨rfl, h, h'⟩
    | cons b t2 =>
      rw [List.nil_append, List.cons_append] at heq
      injection heq with h _
      exact absurd (h ▸ h2 b (List.mem_cons_self b t2)) hc1
  | cons a t1 ih =>
    intro d2 c1 c2 r1 r2 h1 h2 hc1 hc2 heq
    cases d2 with
    | nil =>
      rw [List.cons_append, List.nil_append] at heq
      injection heq with h _
      exact absurd (h ▸ h1 a (List.mem_cons_self a t1)) hc2
    | cons b t2 =>
      rw [List.cons_append, List.cons_append] at heq
      injection heq with hab htail
      obtain ⟨he, hc, hr⟩ := ih (fun c hc => h1 c (List.mem_cons_of_mem a hc))
        (fun c hc => h2 c (List.mem_cons_of_mem b hc)) hc1 hc2 htail
      exact ⟨by rw [hab, he], hc, hr⟩

theorem generate_crop_filename_data_reverse (d : String) (p i : ℕ) (t : String) :
    (generate_crop_filename d p i t).data.reverse
      = 'g' :: 'n' :: 'p' :: '.' :: (t.data.reverse ++ '_' ::
          ((natDecimal i).reverse ++ 'r' :: '_' ::
            ((natDecimal p).reverse ++ 'p' :: '_' :: (sanitizeDocId d).data.reverse))) := by
  show ((sanitizeDocId d).data
    ++ '_' :: 'p' :: natDecimal p
    ++ '_' :: 'r' :: natDecimal i
    ++ '_' :: t.data
    ++ ".png".data).reverse = _
  rw [show (".png".data) = ['.', 'p', 'n', 'g'] from rfl]
  simp [List.reverse_append]

/-- C10 (amended): crop filenames have the form
`{sanitised_doc_id}_p{page}_r{index}_{tight|context}.png`; the function is
deterministic (it is a function of its inputs); for doc ids of ASCII
characters every character of the sanitised id lies in `[A-Za-z0-9._-]`;
and two inputs (with crop types among `tight`/`context`) collide only when
they agree on page, index, crop type and SANITISED doc id — sanitisation
itself may identify distinct doc ids (e.g. `"a b"` and `"a_b"`), and
non-ASCII alphanumerics pass through unchanged. -/
theorem generate_crop_filename_spec :
    (∀ d : String, (∀ c ∈ d.data, c.toNat < 128) →
      ∀ c ∈ (sanitizeDocId d).data, (c.isAlphanum ∨ c = '.' ∨ c = '_' ∨ c = '-')) ∧
    (∀ (d1 : String) (p1 i1 : ℕ) (t1 : String) (d2 : String) (p2 i2 : ℕ) (t2 : String),
      (t1 = "tight" ∨ t1 = "context") → (t2 = "tight" ∨ t2 = "context") →
      generate_crop_filename d1 p1 i1 t1 = generate_crop_filename d2 p2 i2 t2 →
      sanitizeDocId d1 = sanitizeDocId d2 ∧ p1 = p2 ∧ i1 = i2 ∧ t1 = t2) := by
  constructor
  · intro d hascii c hc
    obtain ⟨c0, hc0, hmap⟩ := List.mem_map.mp hc
    by_cases hcond : (pyIsAlnum c0 || c0 = '.' || c0 = '_' || c0 = '-') = true
    · rw [if_pos hcond] at hmap
      subst hmap
      have hlt := hascii c0 hc0
      simp only [Bool.or_eq_true, decide_eq_true_eq] at hcond
      rcases hcond with ((ha | h) | h) | h
      · left
        rw [pyIsAlnum, Bool.or_eq_true] at ha
        rcases ha with ha | ha
        · exact ha
        · exfalso
          simp only [Bool.or_eq_true, Bool.and_eq_true, decide_eq_true_eq] at ha
          omega
      · exact Or.inr (Or.inl h)
      · exact Or.inr (Or.inr (Or.inl h))
      · exact Or.inr (Or.inr (Or.inr h))
    · rw [if_neg hcond] at hmap
      subst hmap
      exact Or.inr (Or.inr (Or.inl rfl))
  · intro d1 p1 i1 t1 d2 p2 i2 t2 ht1 ht2 heq
    have hl : (generate_crop_filename d1 p1 i1 t1).data.reverse
        = (generate_crop_filename d2 p2 i2 t2).data.reverse :=
      congrArg (fun s : String => s.data.reverse) heq
    rw [generate_crop_filename_data_reverse, generate_crop_filename_data_reverse] at hl
    have hteq : t1 = t2 ∧
        ((natDecimal i1).reverse ++ 'r' :: '_' ::
            ((natDecimal p1).reverse ++ 'p' :: '_' :: (sanitizeDocId d1).data.reverse))
          = ((natDecimal i2).reverse ++ 'r' :: '_' ::
            ((natDecimal p2).reverse ++ 'p' :: '_' :: (sanitizeDocId d2).data.reverse)) := by
      rcases ht1 with rfl | rfl <;> rcases ht2 with rfl | rfl <;>
        simp only [show ("tight".data.reverse) = ['t', 'h', 'g', 'i', 't'] from rfl,
          show ("context".data.reverse) = ['t', 'x', 'e', 't', 'n', 'o', 'c'] from rfl]
          at hl <;> simp at hl
      · exact ⟨rfl, hl⟩
      · exact ⟨rfl, hl⟩
    obtain ⟨htt, hl2⟩ := hteq
    obtain ⟨hdi, _, hl3⟩ := digit_run_append_inj (natDecimal i1).reverse
      (fun c hc => natDecimal_digits i1 c (List.mem_reverse.mp hc))
      (fun c hc => natDecimal_digits i2 c (List.mem_reverse.mp hc))
      (by decide) (by decide) hl2
    have hi : i1 = i2 := natDecimal_injective (List.reverse_injective hdi)
    injection hl3 with _ hl4
    obtain ⟨hdp, _, hl5⟩ := digit_run_append_inj (natDecimal p1).reverse
      (fun c hc => natDecimal_digits p1 c (List.mem_reverse.mp hc))
      (fun c hc => natDecimal_digits p2 c (List.mem_reverse.mp hc))
      (by decide) (by decide) hl4
    have hp : p1 = p2 := natDecimal_injective (List.reverse_injective hdp)
    injection hl5 with _ hl6
    exact ⟨String.ext (List.reverse_injective hl6), hp, hi, htt⟩

/-- Witness for `generate_crop_filename_spec`: the character `a` of the
sanitised ASCII doc id `"a b"` is in the allowed set, and two filenames
with different page numbers are distinct. -/
theorem generate_crop_filename_spec_witness :
    ('a'.isAlphanum ∨ 'a' = '.' ∨ 'a' = '_' ∨ 'a' = '-') ∧
    generate_crop_filename "a" 1 0 "tight" ≠ generate_crop_filename "a" 2 0 "tight" :=
  ⟨generate_crop_filename_spec.1 "a b" (by decide) 'a' (by decide),
   fun h => absurd ((generate_crop_filename_spec.2 "a" 1 0 "tight" "a" 2 0 "tight"
     (Or.inl rfl) (Or.inl rfl) h).2.1) (by decide)⟩

/-- C10 counterexample: the sanitised doc ids of `"a b"` and `"a_b"`
coincide, so these distinct inputs collide; and the Latin-1 letter `é`
(alphanumeric for Python's `str.isalnum`) passes through sanitisation
although it is outside `[A-Za-z0-9._-]`. -/
theorem generate_crop_filename_counterexample :
    generate_crop_filename "a b" 1 0 "tight" = generate_crop_filename "a_b" 1 0 "tight" ∧
    ("a b" : String) ≠ "a_b" ∧
    'é' ∈ (sanitizeDocId "é").data ∧
    ¬ ('é'.isAlphanum ∨ 'é' = '.' ∨ 'é' = '_' ∨ 'é' = '-') := by
  refine ⟨by decide, by decide, by decide, by decide⟩

end EpsteinStudio
